import Mathlib

/-!
Verification of the HEUv3 heat-exchange-unit controller against its design
specification.

The repository implements the same line-oriented serial protocol twice:
heu3_driver.py (pyserial backend, terminator CR) and heu3_api.py (pyvisa
backend, terminator LF).  Both are embedded below.  Python strings are
modelled as lists of Unicode characters; the serial link is modelled by
explicit state passing: the commands written to the wire are recorded in
order, and the raw responses the device will deliver to successive reads are
an explicit oracle list.  Machine integers are Int/Nat, Python floats are
modelled as exact rationals.  The mutual-exclusion behaviour of the lock in
_send_query is modelled separately as an interleaving transition system.
-/

set_option maxRecDepth 8000

deriving instance DecidableEq for Except

namespace HEU3

/-- A Python str: a sequence of Unicode code points. -/
abbrev PyStr := List Char

/-- The characters removed by Python str.strip with no argument. -/
def isPySpace (c : Char) : Bool :=
  c = ' ' || c = '\t' || c = '\n' || c = '\r' || c = '\x0b' || c = '\x0c'

/-- Python s.strip(): drop whitespace from both ends. -/
def pyStrip (s : PyStr) : PyStr :=
  ((s.dropWhile isPySpace).reverse.dropWhile isPySpace).reverse

/-- Fuel-indexed worker for Python str.replace: replaces the non-overlapping
occurrences of pat, scanning left to right.  The fuel argument only bounds the
recursion; pyReplace supplies the length of the subject string, which is
enough because every step consumes at least one character. -/
def pyReplaceAux (pat rep : PyStr) : Nat → PyStr → PyStr
  | 0, s => s
  | _ + 1, [] => []
  | fuel + 1, c :: rest =>
    if pat ≠ [] ∧ pat.isPrefixOf (c :: rest) then
      rep ++ pyReplaceAux pat rep fuel (List.drop pat.length (c :: rest))
    else
      c :: pyReplaceAux pat rep fuel rest

/-- Python s.replace(pat, rep).  The pattern is never empty at the call sites
embedded here (it is always a framed command, which ends in the terminator). -/
def pyReplace (pat rep s : PyStr) : PyStr := pyReplaceAux pat rep s.length s

/-- Python s.split(sep) with a one-character separator: split on every
occurrence of the separator, keeping empty fields. -/
def pySplitChar (sep : Char) : PyStr → List PyStr
  | [] => [[]]
  | c :: rest =>
    if c = sep then [] :: pySplitChar sep rest
    else
      match pySplitChar sep rest with
      | [] => [[c]]
      | g :: gs => (c :: g) :: gs

/-- Decimal digit characters. -/
def isDig (c : Char) : Bool := 48 ≤ c.toNat && c.toNat ≤ 57

/-- Value of a decimal digit character. -/
def digitVal (c : Char) : Option Nat :=
  if isDig c then some (c.toNat - 48) else none

def parseNatAux : PyStr → Nat → Option Nat
  | [], acc => some acc
  | c :: rest, acc =>
    match digitVal c with
    | some d => parseNatAux rest (acc * 10 + d)
    | none => none

/-- A nonempty all-digit string read as a Nat; none otherwise. -/
def parseNatDigits (s : PyStr) : Option Nat :=
  if s = [] then none else parseNatAux s 0

/-- Python int(s): surrounding whitespace allowed, optional sign, decimal
digits; raises ValueError (modelled as none) on anything else. -/
def pyInt (s : PyStr) : Option Int :=
  match pyStrip s with
  | '-' :: ds => (parseNatDigits ds).map (fun n => -(n : Int))
  | '+' :: ds => (parseNatDigits ds).map (fun n => (n : Int))
  | ds => (parseNatDigits ds).map (fun n => (n : Int))

/-- Mantissa of Python float(s): digits, digits.digits, .digits or digits.
The exact decimal value is returned as a rational. -/
def parseDecMantissa (s : PyStr) : Option ℚ :=
  match pySplitChar '.' s with
  | [a] => (parseNatDigits a).map (fun n => ((n : ℕ) : ℚ))
  | [a, b] =>
    if a = [] ∧ b = [] then none
    else
      match (if a = [] then some 0 else parseNatDigits a),
            (if b = [] then some 0 else parseNatDigits b) with
      | some x, some y => some (((x : ℕ) : ℚ) + ((y : ℕ) : ℚ) / (10 : ℚ) ^ b.length)
      | _, _ => none
  | _ => none

/-- Python float(s) restricted to the plain decimal forms the instrument
protocol uses (no exponent or special values occur in any declared format). -/
def pyFloat (s : PyStr) : Option ℚ :=
  match pyStrip s with
  | '-' :: ds => (parseDecMantissa ds).map (fun q => -q)
  | '+' :: ds => parseDecMantissa ds
  | ds => parseDecMantissa ds

/-- Python str(i) for an int: decimal digits, with a leading minus sign for
negative values. -/
def pyStrInt (i : Int) : PyStr :=
  if i < 0 then '-' :: Nat.toDigits 10 i.natAbs else Nat.toDigits 10 i.toNat

/-- Python s.zfill(w): left-pad with zeros up to width w, after a leading
sign when one is present. -/
def pyZfill (s : PyStr) (w : Nat) : PyStr :=
  match s with
  | [] => List.replicate w '0'
  | c :: rest =>
    if c = '-' ∨ c = '+' then
      c :: (List.replicate (w - (rest.length + 1)) '0' ++ rest)
    else
      List.replicate (w - (rest.length + 1)) '0' ++ (c :: rest)

/-- Python format spec .2f applied to the exact rational value: scale by 100,
round to the nearest integer, and write with exactly two digits after the
point. -/
def fmt2fNat (n : Nat) : PyStr :=
  Nat.toDigits 10 (n / 100) ++ '.' :: pyZfill (Nat.toDigits 10 (n % 100)) 2

def fmt2f (q : ℚ) : PyStr :=
  if round (q * 100) < 0 then '-' :: fmt2fNat (round (q * 100)).natAbs
  else fmt2fNat (round (q * 100)).toNat

/-! ## The pyserial driver, heu3_driver.py -/

/-- heu3_driver.py line 49: self._term_char = a carriage return. -/
def termChar : Char := '\r'

/-- heu3_driver.py lines 72-73: append the terminator iff the query does not
already end with it. -/
def frame (q : PyStr) : PyStr :=
  if [termChar].isSuffixOf q then q else q ++ [termChar]

/-- heu3_driver.py line 82: raw_response.replace(query, '').strip(). -/
def fmtResponse (q raw : PyStr) : PyStr := pyStrip (pyReplace q [] raw)

/-- The exceptions the embedded code can raise: RuntimeError (no instrument
connected), ValueError, TypeError, IndexError, and the ConnectionError the
pyvisa variant wraps transport faults in. -/
inductive PyErr
  | runtime
  | valueErr
  | typeErr
  | indexErr
  | connectionErr
deriving DecidableEq

/-- State of the pyserial driver: the serial_port handle (none, or some
is_open flag), the commands written to the wire in order, and the oracle of
raw responses the device delivers to successive reads. -/
structure DrvState where
  port : Option Bool
  sent : List PyStr
  pending : List PyStr
deriving DecidableEq

/-- heu3_driver.HEUv3._send_query, sequential functional model (the lock is
modelled by the interleaving system further below; sequentially the guarded
body is one atomic block).  reset_input_buffer discards stale input, so the
pending oracle delivers exactly one raw response per read; an exhausted
oracle yields an empty read, matching a pyserial read_until timeout, which
returns the partial data instead of raising. -/
def sendQuery (st : DrvState) (query : PyStr) : Except PyErr PyStr × DrvState :=
  if st.port ≠ some true then (.error .runtime, st)
  else
    let q := frame query
    match st.pending with
    | [] => (.ok (fmtResponse q []), { st with sent := st.sent ++ [q] })
    | r :: rest =>
      (.ok (fmtResponse q r), { st with sent := st.sent ++ [q], pending := rest })

/-- heu3_driver.HEUv3.open_connection: on success serial_port is an open
handle; any underlying failure is caught and serial_port is set to None. -/
def open_connection (st : DrvState) (success : Bool) : DrvState :=
  if success then { st with port := some true } else { st with port := none }

/-- Sequence the result of a query into a parsing continuation, propagating a
raised exception unchanged (plain Python control flow). -/
def qBind (p : Except PyErr PyStr × DrvState) (f : PyStr → Except PyErr α) :
    Except PyErr α × DrvState :=
  match p with
  | (.ok r, st) => (f r, st)
  | (.error e, st) => (.error e, st)

/-- Run a list of queries in order (used to state that a disconnected driver
rejects every subsequent command attempt). -/
def runQueries (st : DrvState) : List PyStr → List (Except PyErr PyStr) × DrvState
  | [] => ([], st)
  | q :: qs =>
    match sendQuery st q with
    | (r, st2) =>
      match runQueries st2 qs with
      | (rs, st3) => (r :: rs, st3)

/-- heu3_driver.HEUv3.ping. -/
def ping (st : DrvState) : Except PyErr PyStr × DrvState := sendQuery st ("!".data)

/-- heu3_driver.HEUv3.inlet_temp: float(response) raises ValueError on
non-numeric text. -/
def inlet_temp (st : DrvState) : Except PyErr ℚ × DrvState :=
  qBind (sendQuery st ("RINTE".data)) (fun r =>
    match pyFloat r with
    | some x => .ok x
    | none => .error .valueErr)

/-- heu3_driver.HEUv3.outlet_temp. -/
def outlet_temp (st : DrvState) : Except PyErr ℚ × DrvState :=
  qBind (sendQuery st ("ROUTT".data)) (fun r =>
    match pyFloat r with
    | some x => .ok x
    | none => .error .valueErr)

/-- heu3_driver.HEUv3.flow_rate. -/
def flow_rate (st : DrvState) : Except PyErr ℚ × DrvState :=
  qBind (sendQuery st ("RFLOW".data)) (fun r =>
    match pyFloat r with
    | some x => .ok x
    | none => .error .valueErr)

/-- heu3_driver.HEUv3.is_interlocked: the comparison response == '0' is a
plain equality test and never raises. -/
def is_interlocked (st : DrvState) : Except PyErr Bool × DrvState :=
  qBind (sendQuery st ("RINTR".data)) (fun r => .ok (r == "0".data))

/-- heu3_driver.HEUv3.leak_detected. -/
def leak_detected (st : DrvState) : Except PyErr Bool × DrvState :=
  qBind (sendQuery st ("RLEAK".data)) (fun r => .ok (r == "1".data))

/-- heu3_driver.HEUv3.pumps_enabled. -/
def pumps_enabled (st : DrvState) : Except PyErr Bool × DrvState :=
  qBind (sendQuery st ("RONOF".data)) (fun r => .ok (r == "1".data))

/-- heu3_driver.HEUv3.pump_status: response.split(','), then int() of fields
0 and 1 in that order (field 0 is parsed before field 1 is indexed). -/
def pump_status (st : DrvState) : Except PyErr (Int × Int) × DrvState :=
  qBind (sendQuery st ("RPUMP".data)) (fun r =>
    match pySplitChar ',' r with
    | [] => .error .indexErr
    | p0 :: rest =>
      match pyInt p0 with
      | none => .error .valueErr
      | some a =>
        match rest with
        | [] => .error .indexErr
        | p1 :: _ =>
          match pyInt p1 with
          | none => .error .valueErr
          | some b => .ok (a, b))

/-- heu3_driver.HEUv3.hour_meters. -/
def hour_meters (st : DrvState) : Except PyErr PyStr × DrvState :=
  sendQuery st ("RHOUR".data)

/-- int(h.split(' ')[i]): shared shape of the three hour-meter accessors. -/
def hourField (h : PyStr) (i : Nat) : Except PyErr Int :=
  match (pySplitChar ' ' h).get? i with
  | none => .error .indexErr
  | some f =>
    match pyInt f with
    | none => .error .valueErr
    | some z => .ok z

/-- heu3_driver.HEUv3.unit_hours: a fresh RHOUR query, field 0 as int. -/
def unit_hours (st : DrvState) : Except PyErr Int × DrvState :=
  qBind (hour_meters st) (fun h => hourField h 0)

/-- heu3_driver.HEUv3.pump1_hours: a fresh RHOUR query, field 1 as int. -/
def pump1_hours (st : DrvState) : Except PyErr Int × DrvState :=
  qBind (hour_meters st) (fun h => hourField h 1)

/-- heu3_driver.HEUv3.pump2_hours: a fresh RHOUR query, field 2 as int. -/
def pump2_hours (st : DrvState) : Except PyErr Int × DrvState :=
  qBind (hour_meters st) (fun h => hourField h 2)

/-- heu3_driver.HEUv3.power_dissipated. -/
def power_dissipated (st : DrvState) : Except PyErr Int × DrvState :=
  qBind (sendQuery st ("RPOWR".data)) (fun r =>
    match pyInt r with
    | some z => .ok z
    | none => .error .valueErr)

/-- heu3_driver.HEUv3.datetime. -/
def datetime (st : DrvState) : Except PyErr PyStr × DrvState :=
  sendQuery st ("RDATI".data)

/-- heu3_driver.HEUv3.factory_info. -/
def factory_info (st : DrvState) : Except PyErr PyStr × DrvState :=
  sendQuery st ("RFINF".data)

/-- s.split(' ')[i]: shared shape of the six factory-info accessors. -/
def finfField (s : PyStr) (i : Nat) : Except PyErr PyStr :=
  match (pySplitChar ' ' s).get? i with
  | none => .error .indexErr
  | some f => .ok f

/-- heu3_driver.HEUv3.serial_number: a fresh RFINF query, field 0. -/
def serial_number (st : DrvState) : Except PyErr PyStr × DrvState :=
  qBind (factory_info st) (fun s => finfField s 0)

/-- heu3_driver.HEUv3.protocol_version: a fresh RFINF query, field 1. -/
def protocol_version (st : DrvState) : Except PyErr PyStr × DrvState :=
  qBind (factory_info st) (fun s => finfField s 1)

/-- heu3_driver.HEUv3.boot_ups: a fresh RFINF query, int of field 2. -/
def boot_ups (st : DrvState) : Except PyErr Int × DrvState :=
  qBind (factory_info st) (fun s =>
    match finfField s 2 with
    | .error e => .error e
    | .ok f =>
      match pyInt f with
      | none => .error .valueErr
      | some z => .ok z)

/-- heu3_driver.HEUv3.hardware_version: a fresh RFINF query, field 3. -/
def hardware_version (st : DrvState) : Except PyErr PyStr × DrvState :=
  qBind (factory_info st) (fun s => finfField s 3)

/-- heu3_driver.HEUv3.sofware_version (name as in the source): a fresh RFINF
query, field 4. -/
def sofware_version (st : DrvState) : Except PyErr PyStr × DrvState :=
  qBind (factory_info st) (fun s => finfField s 4)

/-- heu3_driver.HEUv3.compile_date: a fresh RFINF query, field 5. -/
def compile_date (st : DrvState) : Except PyErr PyStr × DrvState :=
  qBind (factory_info st) (fun s => finfField s 5)

/-- heu3_driver.HEUv3.pump_speed getter. -/
def pump_speed_get (st : DrvState) : Except PyErr Int × DrvState :=
  qBind (sendQuery st ("RPSPD".data)) (fun r =>
    match pyInt r with
    | some z => .ok z
    | none => .error .valueErr)

/-- heu3_driver.HEUv3.pump_speed setter (lines 438-463).  The argument is an
int (the isinstance TypeError branch is outside this embedding, which types
the argument); range check 0 <= value <= 999 raises ValueError before any
I/O, otherwise SPS plus str(value).zfill(3) is sent. -/
def pump_speed_set (st : DrvState) (value : Int) : Except PyErr Unit × DrvState :=
  if ¬ (0 ≤ value ∧ value ≤ 999) then (.error .valueErr, st)
  else
    let speed_str := pyZfill (pyStrInt value) 3
    qBind (sendQuery st ("SPS".data ++ speed_str)) (fun _ => .ok ())

/-- heu3_driver.HEUv3.max_temp_interlock setter: range 5 <= value <= 65,
int(value) truncation (equal to the floor on the validated positive range),
command SMAXT plus str(value).zfill(2). -/
def max_temp_interlock_set (st : DrvState) (value : ℚ) : Except PyErr Unit × DrvState :=
  if ¬ (5 ≤ value ∧ value ≤ 65) then (.error .valueErr, st)
  else
    let v : Int := ⌊value⌋
    let set_point_str := pyZfill (pyStrInt v) 2
    qBind (sendQuery st ("SMAXT".data ++ set_point_str)) (fun _ => .ok ())

/-- heu3_driver.HEUv3.min_flow_interlock setter (lines 517-541): range check
0.5 <= value < 10 raises ValueError before any I/O, otherwise SMINF plus the
value formatted with format spec .2f is sent. -/
def min_flow_interlock_set (st : DrvState) (value : ℚ) : Except PyErr Unit × DrvState :=
  if ¬ (1 / 2 ≤ value ∧ value < 10) then (.error .valueErr, st)
  else
    qBind (sendQuery st ("SMINF".data ++ fmt2f value)) (fun _ => .ok ())

/-- heu3_driver.HEUv3.select_pumps (lines 172-180): no validation of the pump
argument; the command SPONO followed by str(pump) is always sent. -/
def select_pumps (st : DrvState) (pump : Int) : Except PyErr Unit × DrvState :=
  qBind (sendQuery st ("SPONO".data ++ pyStrInt pump)) (fun _ => .ok ())

/-! ## The pyvisa driver, heu3_api.py -/

/-- heu3_api.HEUv3.send_query (lines 56-79).  The instrument field is None or
the pyvisa query operation: write the command, read the answer, possibly
failing at the transport level.  The first component of the result lists the
commands actually written to the wire; the second is the returned value or
the raised exception.  The source indentation puts the try/with block that
performs the query inside the branch that appended the terminator, so a
command that already ends in the terminator falls through and the method
returns None without any I/O; a missing instrument likewise returns None
(plain `return`) rather than raising.  A transport failure is wrapped and
re-raised as ConnectionError. -/
def api_send_query (instrument : Option (PyStr → Except Unit PyStr)) (command : PyStr) :
    List PyStr × Except PyErr (Option PyStr) :=
  match instrument with
  | none => ([], .ok none)
  | some query_fn =>
    if ¬ (['\n'].isSuffixOf command) then
      let c := command ++ ['\n']
      match query_fn c with
      | .ok resp => ([c], .ok (some resp))
      | .error _ => ([c], .error .connectionErr)
    else ([], .ok none)

/-- heu3_api.HEUv3.set_pump_speed (lines 125-151): range check
set_point < 0 or set_point > 999 raises ValueError before any I/O, otherwise
SPS plus str(set_point).zfill(3) goes to send_query. -/
def api_set_pump_speed (instrument : Option (PyStr → Except Unit PyStr))
    (set_point : Int) : List PyStr × Except PyErr (Option PyStr) :=
  if set_point < 0 ∨ set_point > 999 then ([], .error .valueErr)
  else api_send_query instrument ("SPS".data ++ pyZfill (pyStrInt set_point) 3)

/-- heu3_api.HEUv3.set_min_flow_interlock (lines 201-224): range check
set_point < 0.5 or set_point > 10 raises ValueError, otherwise SMINF plus the
value formatted with format spec .2f goes to send_query. -/
def api_set_min_flow_interlock (instrument : Option (PyStr → Except Unit PyStr))
    (set_point : ℚ) : List PyStr × Except PyErr (Option PyStr) :=
  if set_point < 1 / 2 ∨ set_point > 10 then ([], .error .valueErr)
  else api_send_query instrument ("SMINF".data ++ fmt2f set_point)

/-- heu3_api.HEUv3.select_pumps (lines 226-237): no validation of the pump
argument. -/
def api_select_pumps (instrument : Option (PyStr → Except Unit PyStr))
    (pump : Int) : List PyStr × Except PyErr (Option PyStr) :=
  api_send_query instrument ("SPONO".data ++ pyStrInt pump)

/-! ## Interleaving model of the lock in _send_query (heu3_driver.py 75-87)

Several callers may invoke _send_query concurrently.  Framing happens before
the lock is taken; the body of `with self._lock:` performs reset, write and
read; leaving the with-block (by return or by a propagating exception)
releases the lock.  Each transport action becomes one labelled step, enabled
only while holding the lock; the device is modelled by a response function
applied to the last written command, placing the reply in its output
buffer. -/

/-- Program counter of one caller inside _send_query. -/
inductive PC
  | start
  | locked
  | cleared
  | wrote
  | done
  | failed
deriving DecidableEq

/-- One caller: its control point and the response it has returned, if any. -/
structure TState where
  pc : PC
  resp : Option PyStr
deriving DecidableEq

/-- Global state: the lock (none, or the caller holding it), the device
output buffer, and every callers local state. -/
structure Sys (n : Nat) where
  lock : Option (Fin n)
  buf : List PyStr
  threads : Fin n → TState

/-- All callers at the top of _send_query, lock free, device buffer empty. -/
def initSys (n : Nat) : Sys n := ⟨none, [], fun _ => ⟨.start, none⟩⟩

/-- Control points inside the with-block (the critical section). -/
def inCS (p : PC) : Prop := p = .locked ∨ p = .cleared ∨ p = .wrote

instance (p : PC) : Decidable (inCS p) := by unfold inCS; infer_instance

/-- One interleaving step.  cmds gives each caller its raw command; respond
is the device turning a framed command into the raw reply it buffers.
acquire requires the lock free; reset (reset_input_buffer), write and read
require holding it; read and fail (a transport exception propagating out of
the with-block) atomically release it, exactly as leaving the Python
with-statement does. -/
inductive Step (cmds : Fin n → PyStr) (respond : PyStr → PyStr) : Sys n → Sys n → Prop
  | acquire (s : Sys n) (t : Fin n)
      (hl : s.lock = none) (hp : (s.threads t).pc = .start) :
      Step cmds respond s
        ⟨some t, s.buf, Function.update s.threads t ⟨.locked, (s.threads t).resp⟩⟩
  | reset (s : Sys n) (t : Fin n)
      (hl : s.lock = some t) (hp : (s.threads t).pc = .locked) :
      Step cmds respond s
        ⟨some t, [], Function.update s.threads t ⟨.cleared, (s.threads t).resp⟩⟩
  | write (s : Sys n) (t : Fin n)
      (hl : s.lock = some t) (hp : (s.threads t).pc = .cleared) :
      Step cmds respond s
        ⟨some t, s.buf ++ [respond (frame (cmds t))],
          Function.update s.threads t ⟨.wrote, (s.threads t).resp⟩⟩
  | read (s : Sys n) (t : Fin n) (r : PyStr) (rest : List PyStr)
      (hl : s.lock = some t) (hp : (s.threads t).pc = .wrote)
      (hb : s.buf = r :: rest) :
      Step cmds respond s
        ⟨none, rest,
          Function.update s.threads t ⟨.done, some (fmtResponse (frame (cmds t)) r)⟩⟩
  | fail (s : Sys n) (t : Fin n)
      (hl : s.lock = some t) (hp : inCS (s.threads t).pc) :
      Step cmds respond s
        ⟨none, s.buf, Function.update s.threads t ⟨.failed, (s.threads t).resp⟩⟩

/-- States reachable from the initial state by interleaved steps. -/
inductive Reach (cmds : Fin n → PyStr) (respond : PyStr → PyStr) : Sys n → Prop
  | init : Reach cmds respond (initSys n)
  | step {s₁ s₂ : Sys n} :
      Reach cmds respond s₁ → Step cmds respond s₁ s₂ → Reach cmds respond s₂

/-- The inductive invariant: only the lock holder is in the critical section;
after its reset the buffer is empty; after its write the buffer holds exactly
the reply to its own framed command; a finished caller carries the formatted
reply to its own command; the holder is always inside the with-block. -/
def Inv (cmds : Fin n → PyStr) (respond : PyStr → PyStr) (s : Sys n) : Prop :=
  (∀ t, inCS (s.threads t).pc → s.lock = some t) ∧
  (∀ t, (s.threads t).pc = .cleared → s.buf = []) ∧
  (∀ t, (s.threads t).pc = .wrote → s.buf = [respond (frame (cmds t))]) ∧
  (∀ t, (s.threads t).pc = .done →
    (s.threads t).resp = some (fmtResponse (frame (cmds t)) (respond (frame (cmds t))))) ∧
  (∀ t, s.lock = some t → inCS (s.threads t).pc)

/-- Demonstration instance for the lock-model witnesses: one caller issuing
RINTE against a device that replies 23.4. -/
def cmds1 : Fin 1 → PyStr := fun _ => "RINTE".data

def respond1 : PyStr → PyStr := fun _ => "23.4".data

/-- Modelled from the spec words (section 8, pump-speed property): the value
rendered in decimal and left-padded with zeros to width 3. -/
def specZeroPad3 (m : Nat) : PyStr :=
  List.replicate (3 - (Nat.toDigits 10 m).length) '0' ++ Nat.toDigits 10 m

/-- Modelled from the spec words (claim C7): strip the leading occurrence of
the framed command from the raw response, then trim terminator/whitespace. -/
def specStripLeading (q raw : PyStr) : PyStr :=
  pyStrip (if q.isPrefixOf raw then List.drop q.length raw else raw)

/-- The invariant holds initially. -/
theorem inv_init (cmds : Fin n → PyStr) (respond : PyStr → PyStr) :
    Inv cmds respond (initSys n) := by
  refine ⟨?_, ?_, ?_, ?_, ?_⟩ <;> intro t h <;> simp [initSys, inCS] at h

/-- Every step preserves the invariant. -/
theorem inv_step {cmds : Fin n → PyStr} {respond : PyStr → PyStr} {s₁ s₂ : Sys n}
    (hinv : Inv cmds respond s₁) (hs : Step cmds respond s₁ s₂) :
    Inv cmds respond s₂ := by
  obtain ⟨h1, h2, h3, h4, h5⟩ := hinv
  cases hs with
  | acquire t hl hp =>
    have hno : ∀ u, ¬ inCS (s₁.threads u).pc := by
      intro u hu
      have hcontr := h1 u hu
      rw [hl] at hcontr
      exact Option.noConfusion hcontr
    refine ⟨?_, ?_, ?_, ?_, ?_⟩ <;> intro u hu <;> dsimp only at hu ⊢
    · by_cases he : u = t
      · subst he; rfl
      · rw [Function.update_noteq he] at hu
        exact absurd hu (hno u)
    · by_cases he : u = t
      · subst he; rw [Function.update_same] at hu; simp at hu
      · rw [Function.update_noteq he] at hu
        exact absurd (Or.inr (Or.inl hu)) (hno u)
    · by_cases he : u = t
      · subst he; rw [Function.update_same] at hu; simp at hu
      · rw [Function.update_noteq he] at hu
        exact absurd (Or.inr (Or.inr hu)) (hno u)
    · by_cases he : u = t
      · subst he; rw [Function.update_same] at hu; simp at hu
      · rw [Function.update_noteq he] at hu
        rw [Function.update_noteq he]
        exact h4 u hu
    · have he : u = t := by
        have := Option.some.inj hu
        exact this.symm
      subst he
      rw [Function.update_same]
      exact Or.inl rfl
  | reset t hl hp =>
    have honly : ∀ u, inCS (s₁.threads u).pc → u = t := by
      intro u hu
      have h := h1 u hu
      rw [hl] at h
      exact (Option.some.inj h).symm
    refine ⟨?_, ?_, ?_, ?_, ?_⟩ <;> intro u hu <;> dsimp only at hu ⊢
    · by_cases he : u = t
      · subst he; rfl
      · rw [Function.update_noteq he] at hu
        exact absurd (honly u hu) he
    · by_cases he : u = t
      · subst he; rw [Function.update_same] at hu; simp at hu
      · rw [Function.update_noteq he] at hu
        exact absurd (honly u (Or.inr (Or.inr hu))) he
    · by_cases he : u = t
      · subst he; rw [Function.update_same] at hu; simp at hu
      · rw [Function.update_noteq he] at hu
        rw [Function.update_noteq he]
        exact h4 u hu
    · have he : u = t := (Option.some.inj hu).symm
      subst he
      rw [Function.update_same]
      exact Or.inr (Or.inl rfl)
  | write t hl hp =>
    have honly : ∀ u, inCS (s₁.threads u).pc → u = t := by
      intro u hu
      have h := h1 u hu
      rw [hl] at h
      exact (Option.some.inj h).symm
    have hbuf : s₁.buf = [] := h2 t hp
    refine ⟨?_, ?_, ?_, ?_, ?_⟩ <;> intro u hu <;> dsimp only at hu ⊢
    · by_cases he : u = t
      · subst he; rfl
      · rw [Function.update_noteq he] at hu
        exact absurd (honly u hu) he
    · by_cases he : u = t
      · subst he; rw [Function.update_same] at hu; simp at hu
      · rw [Function.update_noteq he] at hu
        exact absurd (honly u (Or.inr (Or.inl hu))) he
    · by_cases he : u = t
      · subst he; rw [hbuf]; rfl
      · rw [Function.update_noteq he] at hu
        exact absurd (honly u (Or.inr (Or.inr hu))) he
    · by_cases he : u = t
      · subst he; rw [Function.update_same] at hu; simp at hu
      · rw [Function.update_noteq he] at hu
        rw [Function.update_noteq he]
        exact h4 u hu
    · have he : u = t := (Option.some.inj hu).symm
      subst he
      rw [Function.update_same]
      exact Or.inr (Or.inr rfl)
  | read t r rest hl hp hb =>
    have honly : ∀ u, inCS (s₁.threads u).pc → u = t := by
      intro u hu
      have h := h1 u hu
      rw [hl] at h
      exact (Option.some.inj h).symm
    have hr : r = respond (frame (cmds t)) ∧ rest = [] := by
      have hb2 := h3 t hp
      rw [hb] at hb2
      exact ⟨(List.cons.inj hb2).1, (List.cons.inj hb2).2⟩
    refine ⟨?_, ?_, ?_, ?_, ?_⟩ <;> intro u hu <;> dsimp only at hu ⊢
    · by_cases he : u = t
      · subst he; rw [Function.update_same] at hu; simp [inCS] at hu
      · rw [Function.update_noteq he] at hu
        exact absurd (honly u hu) he
    · by_cases he : u = t
      · subst he; rw [Function.update_same] at hu; simp at hu
      · rw [Function.update_noteq he] at hu
        exact absurd (honly u (Or.inr (Or.inl hu))) he
    · by_cases he : u = t
      · subst he; rw [Function.update_same] at hu; simp at hu
      · rw [Function.update_noteq he] at hu
        exact absurd (honly u (Or.inr (Or.inr hu))) he
    · by_cases he : u = t
      · subst he
        rw [Function.update_same]
        rw [hr.1]
      · rw [Function.update_noteq he] at hu
        rw [Function.update_noteq he]
        exact h4 u hu
    · exact Option.noConfusion hu
  | fail t hl hp =>
    have honly : ∀ u, inCS (s₁.threads u).pc → u = t := by
      intro u hu
      have h := h1 u hu
      rw [hl] at h
      exact (Option.some.inj h).symm
    refine ⟨?_, ?_, ?_, ?_, ?_⟩ <;> intro u hu <;> dsimp only at hu ⊢
    · by_cases he : u = t
      · subst he; rw [Function.update_same] at hu; simp [inCS] at hu
      · rw [Function.update_noteq he] at hu
        exact absurd (honly u hu) he
    · by_cases he : u = t
      · subst he; rw [Function.update_same] at hu; simp at hu
      · rw [Function.update_noteq he] at hu
        exact absurd (honly u (Or.inr (Or.inl hu))) he
    · by_cases he : u = t
      · subst he; rw [Function.update_same] at hu; simp at hu
      · rw [Function.update_noteq he] at hu
        exact absurd (honly u (Or.inr (Or.inr hu))) he
    · by_cases he : u = t
      · subst he; rw [Function.update_same] at hu; simp at hu
      · rw [Function.update_noteq he] at hu
        rw [Function.update_noteq he]
        exact h4 u hu
    · exact Option.noConfusion hu

/-- Every reachable state satisfies the invariant. -/
theorem reach_inv {cmds : Fin n → PyStr} {respond : PyStr → PyStr} {s : Sys n}
    (h : Reach cmds respond s) : Inv cmds respond s := by
  induction h with
  | init => exact inv_init cmds respond
  | step _ hs ih => exact inv_step ih hs

/-- Claim C1: the lock serializes the complete reset-write-read cycle of
_send_query, so in every reachable interleaving each caller that has
completed its query holds the formatted device reply to its own framed
command — responses are attributed 1:1, never to another callers command. -/
theorem c1_query_attribution {n : Nat} {cmds : Fin n → PyStr}
    {respond : PyStr → PyStr} {s : Sys n} (h : Reach cmds respond s) (t : Fin n)
    (hdone : (s.threads t).pc = .done) :
    (s.threads t).resp = some (fmtResponse (frame (cmds t)) (respond (frame (cmds t)))) :=
  (reach_inv h).2.2.2.1 t hdone

/-- Claim C2: on every exit path of _send_query — normal completion or a
transport failure propagating out of the with-block — the lock is released:
no finished or failed caller holds it in any reachable state, and whenever
the lock is held, its holder is mid-query and can take a step (so a
subsequent call can always eventually acquire the lock). -/
theorem c2_guard_released {n : Nat} {cmds : Fin n → PyStr}
    {respond : PyStr → PyStr} {s : Sys n} (h : Reach cmds respond s) :
    (∀ t, (s.threads t).pc = .done ∨ (s.threads t).pc = .failed → s.lock ≠ some t) ∧
    (∀ t, s.lock = some t → ∃ s₂, Step cmds respond s s₂) := by
  have hinv := reach_inv h
  constructor
  · intro t ht hl
    have hcs := hinv.2.2.2.2 t hl
    rcases ht with ht | ht <;> rw [ht] at hcs <;> simp [inCS] at hcs
  · intro t hl
    have hcs := hinv.2.2.2.2 t hl
    rcases hcs with hp | hp | hp
    · exact ⟨_, Step.reset s t hl hp⟩
    · exact ⟨_, Step.write s t hl hp⟩
    · exact ⟨_, Step.read s t (respond (frame (cmds t))) [] hl hp (hinv.2.2.1 t hp)⟩

/-- A concrete completed run: acquire, reset, write, read. -/
theorem reach_demo : ∃ s : Sys 1, Reach cmds1 respond1 s ∧ (s.threads 0).pc = .done := by
  refine ⟨_, Reach.step (Reach.step (Reach.step (Reach.step Reach.init
    (Step.acquire _ 0 rfl rfl))
    (Step.reset _ 0 rfl (by decide)))
    (Step.write _ 0 rfl (by decide)))
    (Step.read _ 0 (respond1 (frame (cmds1 0))) [] rfl (by decide) rfl), ?_⟩
  decide

/-- Witness for C1 at a concrete run: the finished caller got "23.4". -/
theorem c1_query_attribution_witness :
    ∃ s : Sys 1, Reach cmds1 respond1 s ∧ (s.threads 0).pc = .done ∧
      (s.threads 0).resp = some ("23.4".data) := by
  obtain ⟨s, hreach, hpc⟩ := reach_demo
  refine ⟨s, hreach, hpc, ?_⟩
  rw [c1_query_attribution hreach 0 hpc]
  decide

/-- Witness for C2 at a concrete run: after completion the lock is free. -/
theorem c2_guard_released_witness :
    ∃ s : Sys 1, Reach cmds1 respond1 s ∧ (s.threads 0).pc = .done ∧ s.lock ≠ some 0 := by
  obtain ⟨s, hreach, hpc⟩ := reach_demo
  exact ⟨s, hreach, hpc, (c2_guard_released hreach).1 0 (Or.inl hpc)⟩

/-! ## Helper lemmas about the Python string primitives -/

/-- The fuel of pyReplaceAux is irrelevant once it covers the subject length. -/
theorem pyReplaceAux_fuel (pat rep : PyStr) :
    ∀ f₁ f₂ s, s.length ≤ f₁ → s.length ≤ f₂ →
      pyReplaceAux pat rep f₁ s = pyReplaceAux pat rep f₂ s := by
  intro f₁
  induction f₁ with
  | zero =>
    intro f₂ s h1 h2
    have hs : s = [] := List.eq_nil_of_length_eq_zero (Nat.le_zero.mp h1)
    subst hs
    cases f₂ <;> rfl
  | succ f ih =>
    intro f₂ s h1 h2
    cases s with
    | nil => cases f₂ <;> rfl
    | cons c rest =>
      cases f₂ with
      | zero => simp at h2
      | succ f₂ =>
        simp only [pyReplaceAux]
        by_cases hc : pat ≠ [] ∧ pat.isPrefixOf (c :: rest)
        · rw [if_pos hc, if_pos hc]
          have hp : 1 ≤ pat.length := List.length_pos.mpr hc.1
          simp only [List.length_cons] at h1 h2
          have hd1 : (List.drop pat.length (c :: rest)).length ≤ f := by
            simp only [List.length_drop, List.length_cons]
            omega
          have hd2 : (List.drop pat.length (c :: rest)).length ≤ f₂ := by
            simp only [List.length_drop, List.length_cons]
            omega
          rw [ih f₂ _ hd1 hd2]
        · rw [if_neg hc, if_neg hc]
          simp only [List.length_cons] at h1 h2
          rw [ih f₂ rest (by omega) (by omega)]

/-- str.replace removes a leading occurrence of the pattern and continues on
the remainder. -/
theorem pyReplace_cons (pat t : PyStr) (h : pat ≠ []) :
    pyReplace pat [] (pat ++ t) = pyReplace pat [] t := by
  cases pat with
  | nil => exact absurd rfl h
  | cons p ps =>
    have hpre : (p :: ps).isPrefixOf (p :: (ps ++ t)) = true := by
      rw [List.isPrefixOf_iff_prefix]
      exact ⟨t, rfl⟩
    show pyReplaceAux (p :: ps) [] ((ps ++ t).length + 1) (p :: (ps ++ t))
      = pyReplace (p :: ps) [] t
    simp only [pyReplaceAux]
    rw [if_pos ⟨by simp, hpre⟩]
    rw [show p :: (ps ++ t) = (p :: ps) ++ t from rfl, List.drop_left]
    unfold pyReplace
    apply pyReplaceAux_fuel
    · rw [List.length_append]
      omega
    · exact Nat.le_refl _

/-- A framed command is never empty. -/
theorem frame_ne_nil (q : PyStr) : frame q ≠ [] := by
  unfold frame
  split
  · intro h
    subst h
    simp_all
  · simp

/-- Being a one-character suffix is having that character last. -/
theorem single_suffix (c : Char) (l : PyStr) :
    [c].isSuffixOf l = true ↔ l.getLast? = some c := by
  rw [List.isSuffixOf_iff_suffix, List.getLast?_eq_some_iff]
  exact ⟨fun ⟨t, ht⟩ => ⟨t, ht.symm⟩, fun ⟨t, ht⟩ => ⟨t, ht.symm⟩⟩

/-- A string ending in a decimal digit does not end in the character c when c
is not a digit (used for the terminator characters CR and LF). -/
theorem not_suffix_digits (c : Char) (pre l : PyStr) (hl : l ≠ [])
    (hdig : ∀ d ∈ l, isDig d = true) (hc : isDig c = false) :
    ¬ ([c].isSuffixOf (pre ++ l) = true) := by
  intro hs
  rw [single_suffix, List.getLast?_append] at hs
  rcases hx : l.getLast? with _ | d
  · exact hl (List.getLast?_eq_none_iff.mp hx)
  · rw [hx] at hs
    simp only [Option.or_some] at hs
    have hd := Option.some.inj hs
    have hmem := List.mem_of_getLast?_eq_some hx
    rw [hd] at hmem
    rw [hdig c hmem] at hc
    cases hc

/-- Framing a command that ends in a digit appends the terminator. -/
theorem frame_append_digits (pre l : PyStr) (hl : l ≠ [])
    (hdig : ∀ d ∈ l, isDig d = true) :
    frame (pre ++ l) = pre ++ l ++ [termChar] := by
  unfold frame
  rw [if_neg (not_suffix_digits termChar pre l hl hdig (by decide))]

/-- The hexadecimal digit characters for values below ten are digits. -/
theorem digitChar_dig : ∀ m, m < 10 → isDig (Nat.digitChar m) = true := by decide

/-- Every character Nat.toDigitsCore adds to the accumulator is a digit. -/
theorem toDigitsCore_digits (fuel : Nat) :
    ∀ n ds, (∀ c ∈ ds, isDig c = true) →
      ∀ c ∈ Nat.toDigitsCore 10 fuel n ds, isDig c = true := by
  induction fuel with
  | zero => intro n ds hds; exact hds
  | succ f ih =>
    intro n ds hds
    simp only [Nat.toDigitsCore]
    have hcons : ∀ c ∈ Nat.digitChar (n % 10) :: ds, isDig c = true := by
      intro c hc
      rcases List.mem_cons.mp hc with rfl | hc
      · exact digitChar_dig _ (Nat.mod_lt _ (by norm_num))
      · exact hds c hc
    split
    · exact hcons
    · exact ih (n / 10) _ hcons

/-- Nat.toDigitsCore never shrinks the accumulator. -/
theorem toDigitsCore_len (fuel : Nat) :
    ∀ n ds, ds.length ≤ (Nat.toDigitsCore 10 fuel n ds).length := by
  induction fuel with
  | zero => intro n ds; exact Nat.le_refl _
  | succ f ih =>
    intro n ds
    simp only [Nat.toDigitsCore]
    split
    · simp
    · calc ds.length ≤ (Nat.digitChar (n % 10) :: ds).length := by simp
        _ ≤ _ := ih (n / 10) _

/-- The decimal rendering of a natural number is nonempty. -/
theorem toDigits_ne_nil (m : Nat) : Nat.toDigits 10 m ≠ [] := by
  have h1 : 1 ≤ (Nat.toDigits 10 m).length := by
    unfold Nat.toDigits
    simp only [Nat.toDigitsCore]
    split
    · simp
    · have h := toDigitsCore_len m (m / 10) [Nat.digitChar (m % 10)]
      simpa using h
  intro h
  rw [h] at h1
  simp at h1

/-- The decimal rendering of a natural number is all digits. -/
theorem toDigits_digits (m : Nat) : ∀ c ∈ Nat.toDigits 10 m, isDig c = true := by
  unfold Nat.toDigits
  exact toDigitsCore_digits (m + 1) m [] (by intro c hc; simp at hc)

/-- Values below 1000 print with at most three digits. -/
theorem toDigits_len_le : ∀ m, m < 1000 → (Nat.toDigits 10 m).length ≤ 3 := by decide

/-- str(i) for a nonnegative int is the plain decimal rendering. -/
theorem pyStrInt_nonneg (i : Int) (h : 0 ≤ i) :
    pyStrInt i = Nat.toDigits 10 i.toNat := by
  unfold pyStrInt
  rw [if_neg (not_lt.mpr h)]

/-- zfill of a plain decimal rendering is the zero-padded decimal rendering. -/
theorem pyZfill_digits (m : Nat) :
    pyZfill (Nat.toDigits 10 m) 3 = specZeroPad3 m := by
  rcases hd : Nat.toDigits 10 m with _ | ⟨c, rest⟩
  · exact absurd hd (toDigits_ne_nil m)
  · have hc : isDig c = true := by
      have := toDigits_digits m c
      rw [hd] at this
      exact this (List.mem_cons_self c rest)
    have hcne : ¬ (c = '-' ∨ c = '+') := by
      rintro (rfl | rfl) <;> cases hc
    simp only [pyZfill, specZeroPad3, hd, if_neg hcne, List.length_cons]

/-- The zero-padded rendering has width exactly 3 on the validated range. -/
theorem specZeroPad3_len (m : Nat) (h : m < 1000) : (specZeroPad3 m).length = 3 := by
  unfold specZeroPad3
  rw [List.length_append, List.length_replicate]
  have h3 := toDigits_len_le m h
  omega

/-- The zero-padded rendering consists of digits only. -/
theorem specZeroPad3_digits (m : Nat) : ∀ c ∈ specZeroPad3 m, isDig c = true := by
  unfold specZeroPad3
  intro c hc
  rcases List.mem_append.mp hc with hc | hc
  · rw [List.eq_of_mem_replicate hc]
    decide
  · exact toDigits_digits m c hc

/-- The zero-padded rendering is nonempty. -/
theorem specZeroPad3_ne_nil (m : Nat) : specZeroPad3 m ≠ [] := by
  unfold specZeroPad3
  intro h
  rcases List.append_eq_nil.mp h with ⟨_, h2⟩
  exact toDigits_ne_nil m h2

/-- str(p) for any int never ends in the character c when c is not a digit. -/
theorem pyStrInt_not_suffix (c : Char) (hc : isDig c = false) (pre : PyStr) (p : Int) :
    ¬ ([c].isSuffixOf (pre ++ pyStrInt p) = true) := by
  unfold pyStrInt
  split_ifs with h
  · rw [show pre ++ ('-' :: Nat.toDigits 10 p.natAbs)
        = (pre ++ ['-']) ++ Nat.toDigits 10 p.natAbs by simp]
    exact not_suffix_digits c _ _ (toDigits_ne_nil _) (toDigits_digits _) hc
  · exact not_suffix_digits c _ _ (toDigits_ne_nil _) (toDigits_digits _) hc

/-- Behaviour of _send_query on an open port: exactly one framed command is
appended to the wire and exactly one pending raw response is consumed. -/
theorem sendQuery_open (st : DrvState) (q : PyStr) (hopen : st.port = some true) :
    sendQuery st q =
      (Except.ok (fmtResponse (frame q) (st.pending.headD [])),
        { st with sent := st.sent ++ [frame q], pending := st.pending.tail }) := by
  unfold sendQuery
  rw [if_neg (not_not_intro hopen)]
  cases hp : st.pending with
  | nil => simp [hp]
  | cons r rest => simp [hp]

/-! ## Claims C3, C4, C7 -/

/-- Claim C3 counterexample: the pyvisa variant with no instrument returns
None silently — an ordinary successful return carrying no response and no
exception — instead of failing with NotConnectedError. -/
theorem c3_api_silent_none :
    api_send_query none ("RINTE".data) = ([], .ok none) := by decide

/-- Claim C3 (amended): while no open port exists, the pyserial driver raises
RuntimeError (the spec NotConnectedError) with no I/O for every command, and
keeps doing so on every subsequent attempt until a successful open; the
pyvisa variant instead returns None silently, also with no I/O. -/
theorem c3_not_connected (st : DrvState) (hport : st.port = none ∨ st.port = some false)
    (qs : List PyStr) (cmd : PyStr) :
    (runQueries st qs).1 = qs.map (fun _ => Except.error PyErr.runtime) ∧
    (runQueries st qs).2 = st ∧
    api_send_query none cmd = ([], .ok none) := by
  have hne : st.port ≠ some true := by
    rcases hport with h | h <;> rw [h] <;> simp
  have hsq : ∀ q, sendQuery st q = (.error .runtime, st) := by
    intro q
    unfold sendQuery
    rw [if_pos hne]
  refine ⟨?_, ?_, rfl⟩
  · induction qs with
    | nil => rfl
    | cons q qs ih => simp [runQueries, hsq, ih]
  · induction qs with
    | nil => rfl
    | cons q qs ih => simp [runQueries, hsq, ih]

/-- Witness for the amended C3: a never-opened driver rejects two successive
commands with RuntimeError and writes nothing. -/
theorem c3_not_connected_witness :
    (runQueries ⟨none, [], []⟩ ["RINTE".data, "SPS042".data]).1
        = [Except.error PyErr.runtime, Except.error PyErr.runtime] ∧
    (runQueries ⟨none, [], []⟩ ["RINTE".data, "SPS042".data]).2 = ⟨none, [], []⟩ ∧
    api_send_query none ("!".data) = ([], .ok none) := by
  have h := c3_not_connected ⟨none, [], []⟩ (Or.inl rfl)
    ["RINTE".data, "SPS042".data] ("!".data)
  simpa using h

/-- Claim C4 (code bug witness): in the pyvisa variant a command that already
ends in the terminator is silently dropped — no bytes reach the wire and None
is returned — while the unterminated form of the same command is framed and
sent; the pyserial variant frames both forms identically. -/
theorem c4_api_terminated_dropped :
    api_send_query (some (fun c => Except.ok c)) ("DE\n".data) = ([], .ok none) ∧
    api_send_query (some (fun c => Except.ok c)) ("DE".data)
        = (["DE\n".data], .ok (some ("DE\n".data))) ∧
    sendQuery ⟨some true, [], ["x".data]⟩ ("DE\x0d".data)
        = sendQuery ⟨some true, [], ["x".data]⟩ ("DE".data) := by decide

/-- Claim C7 counterexample: the code removes every occurrence of the framed
command from the raw response (str.replace), not only the leading one; on a
doubled echo the two cleanings differ. -/
theorem c7_not_leading_only :
    fmtResponse ("SPS042\x0d".data) ("SPS042\x0dSPS042\x0d".data) = [] ∧
    specStripLeading ("SPS042\x0d".data) ("SPS042\x0dSPS042\x0d".data) = "SPS042".data ∧
    fmtResponse ("SPS042\x0d".data) ("SPS042\x0dSPS042\x0d".data)
        ≠ specStripLeading ("SPS042\x0d".data) ("SPS042\x0dSPS042\x0d".data) := by decide

/-- Claim C7 (amended): _send_query strips every occurrence of the original
framed command from the raw response before trimming whitespace and the
terminator; in particular a response that is exactly the echoed framed
command cleans to the empty string, and repeated leading echoes are all
removed. -/
theorem c7_echo_strip (cmd t : PyStr) (h : cmd ≠ []) :
    fmtResponse (frame cmd) (frame cmd) = [] ∧
    fmtResponse cmd (cmd ++ t) = fmtResponse cmd t := by
  constructor
  · have h2 : frame cmd ≠ [] := frame_ne_nil cmd
    have h3 := pyReplace_cons (frame cmd) [] h2
    rw [List.append_nil] at h3
    unfold fmtResponse
    rw [h3]
    rfl
  · unfold fmtResponse
    rw [pyReplace_cons cmd t h]

/-- Witness for the amended C7 at the echoed SPS042 scenario. -/
theorem c7_echo_strip_witness :
    ("SPS042\x0d".data ≠ ([] : PyStr)) ∧
    fmtResponse (frame ("SPS042\x0d".data)) (frame ("SPS042\x0d".data)) = [] ∧
    fmtResponse ("SPS042\x0d".data) ("SPS042\x0d".data ++ "ok".data)
        = fmtResponse ("SPS042\x0d".data) ("ok".data) := by
  have hne : "SPS042\x0d".data ≠ ([] : PyStr) := by decide
  have h := c7_echo_strip ("SPS042\x0d".data) ("ok".data) hne
  exact ⟨hne, h.1, h.2⟩

/-! ## Claims C5 and C6 -/

/-- Claim C5: for every integer n in [0, 999] both variants put exactly
SPS + n zero-padded to width 3 + terminator on the wire (CR for the pyserial
driver, LF for the pyvisa one), the padded field having width exactly 3; for
every n outside the range both raise ValueError (the spec
InvalidArgumentError) and write nothing. -/
theorem c5_set_pump_speed (st : DrvState) (qf : PyStr → Except Unit PyStr) (n : Int)
    (hopen : st.port = some true) :
    (0 ≤ n ∧ n ≤ 999 →
      (pump_speed_set st n).2.sent
          = st.sent ++ ["SPS".data ++ specZeroPad3 n.toNat ++ [termChar]] ∧
      (specZeroPad3 n.toNat).length = 3 ∧
      (api_set_pump_speed (some qf) n).1
          = ["SPS".data ++ specZeroPad3 n.toNat ++ ['\n']]) ∧
    ((n < 0 ∨ 999 < n) →
      pump_speed_set st n = (.error .valueErr, st) ∧
      api_set_pump_speed (some qf) n = ([], .error .valueErr)) := by
  constructor
  · rintro ⟨h0, h999⟩
    have hpad : pyZfill (pyStrInt n) 3 = specZeroPad3 n.toNat := by
      rw [pyStrInt_nonneg n h0]
      exact pyZfill_digits n.toNat
    have hlt : n.toNat < 1000 := by omega
    have hne := specZeroPad3_ne_nil n.toNat
    have hdig := specZeroPad3_digits n.toNat
    refine ⟨?_, specZeroPad3_len n.toNat hlt, ?_⟩
    · simp only [pump_speed_set]
      rw [if_neg (not_not_intro ⟨h0, h999⟩), hpad, sendQuery_open st _ hopen,
        frame_append_digits ("SPS".data) _ hne hdig]
      simp [qBind]
    · simp only [api_set_pump_speed]
      rw [if_neg (by push_neg; omega), hpad]
      simp only [api_send_query]
      rw [if_pos (not_suffix_digits '\n' ("SPS".data) _ hne hdig (by decide))]
      rcases hq : qf ("SPS".data ++ specZeroPad3 n.toNat ++ ['\n']) with r | r <;>
        simp [hq]
  · intro hout
    constructor
    · unfold pump_speed_set
      rw [if_pos (by omega)]
    · unfold api_set_pump_speed
      rw [if_pos (by omega)]

/-- Witness for C5 at n = 42 (valid) and n = 1000 (rejected). -/
theorem c5_set_pump_speed_witness :
    ((0 : Int) ≤ 42 ∧ (42 : Int) ≤ 999) ∧
    (pump_speed_set ⟨some true, [], []⟩ 42).2.sent = ["SPS042\x0d".data] ∧
    (api_set_pump_speed (some (fun c => Except.ok c)) 42).1 = ["SPS042\n".data] ∧
    pump_speed_set ⟨some true, [], []⟩ 1000 = (.error .valueErr, ⟨some true, [], []⟩) := by
  have h := c5_set_pump_speed ⟨some true, [], []⟩ (fun c => Except.ok c) 42 rfl
  have h2 := c5_set_pump_speed ⟨some true, [], []⟩ (fun c => Except.ok c) 1000 rfl
  have ha := h.1 ⟨by decide, by decide⟩
  refine ⟨⟨by decide, by decide⟩, ?_, ?_, (h2.2 (Or.inr (by decide))).1⟩
  · rw [ha.1]
    decide
  · rw [ha.2.2]
    decide

/-- Evaluating format spec .2f through an exact scaling witness. -/
theorem fmt2f_nat (q : ℚ) (m : Nat) (h : q * 100 = ((m : ℕ) : ℚ)) :
    fmt2f q = fmt2fNat m := by
  unfold fmt2f
  rw [h, round_natCast]
  rw [if_neg (not_lt.mpr (Int.natCast_nonneg m))]
  norm_num

/-- Claim C6 (code bug witness): the pyvisa variant accepts the boundary
value 10.0 (its range check is set_point > 10) and writes SMINF10.00 to the
wire, although its own docstring and error message give the valid range as
0.5 to 9.99; the pyserial variant (value < 10) rejects 10.0 before any I/O,
both reject 0.49, and in-range values are formatted with exactly two decimal
digits (0.5 to "0.50", 9.99 to "9.99"). -/
theorem c6_min_flow_boundary :
    api_set_min_flow_interlock (some (fun c => Except.ok c)) 10
        = (["SMINF10.00\n".data], .ok (some ("SMINF10.00\n".data))) ∧
    min_flow_interlock_set ⟨some true, [], []⟩ 10
        = (.error .valueErr, ⟨some true, [], []⟩) ∧
    api_set_min_flow_interlock (some (fun c => Except.ok c)) (49 / 100)
        = ([], .error .valueErr) ∧
    min_flow_interlock_set ⟨some true, [], []⟩ (49 / 100)
        = (.error .valueErr, ⟨some true, [], []⟩) ∧
    fmt2f (1 / 2) = "0.50".data ∧
    fmt2f (999 / 100) = "9.99".data := by
  have h10 : fmt2f 10 = fmt2fNat 1000 := fmt2f_nat 10 1000 (by norm_num)
  refine ⟨?_, ?_, ?_, ?_, ?_, ?_⟩
  · unfold api_set_min_flow_interlock
    rw [if_neg (by norm_num)]
    rw [h10]
    decide
  · unfold min_flow_interlock_set
    rw [if_pos (by norm_num)]
  · unfold api_set_min_flow_interlock
    rw [if_pos (by norm_num)]
  · unfold min_flow_interlock_set
    rw [if_pos (by norm_num)]
  · rw [fmt2f_nat (1 / 2) 50 (by norm_num)]
    decide
  · rw [fmt2f_nat (999 / 100) 999 (by norm_num)]
    decide

/-! ## Claims C8 and C9 -/

/-- Claim C8 counterexample: a response text outside the 0/1 status codes is
silently coerced to false by is_interlocked (response == '0' is a plain
comparison) instead of failing with ProtocolError. -/
theorem c8_bool_silent :
    is_interlocked ⟨some true, [], ["abc".data]⟩
        = (.ok false, ⟨some true, ["RINTR\x0d".data], []⟩) := by decide

/-- Claim C8 (amended): numeric accessors parse a matching response to the
declared value and raise ValueError (the spec ProtocolError) on non-numeric
text, never coercing to zero; the boolean accessors however compare the
cleaned response with a single status code and return a plain boolean for
every response text, silently yielding false on garbage. -/
theorem c8_typed_parsing (st : DrvState) (raw : PyStr) (rs : List PyStr)
    (hopen : st.port = some true) (hpend : st.pending = raw :: rs) :
    (∀ x : ℚ, pyFloat (fmtResponse (frame ("RINTE".data)) raw) = some x →
      (inlet_temp st).1 = .ok x) ∧
    (pyFloat (fmtResponse (frame ("RINTE".data)) raw) = none →
      (inlet_temp st).1 = .error .valueErr) ∧
    (is_interlocked st).1 = .ok (fmtResponse (frame ("RINTR".data)) raw == "0".data) := by
  have hs1 := sendQuery_open st ("RINTE".data) hopen
  have hs2 := sendQuery_open st ("RINTR".data) hopen
  rw [hpend] at hs1 hs2
  simp only [List.headD_cons] at hs1 hs2
  refine ⟨?_, ?_, ?_⟩
  · intro x hx
    unfold inlet_temp
    rw [hs1]
    simp [qBind, hx]
  · intro hx
    unfold inlet_temp
    rw [hs1]
    simp [qBind, hx]
  · unfold is_interlocked
    rw [hs2]
    simp [qBind]

/-- Witness for the amended C8: "23.4" parses to 23.4 for the inlet
temperature, "abc" raises, and a garbage interlock response silently reads
as false. -/
theorem c8_typed_parsing_witness :
    (inlet_temp ⟨some true, [], ["23.4".data]⟩).1 = .ok ((117 : ℚ) / 5) ∧
    (inlet_temp ⟨some true, [], ["abc".data]⟩).1 = .error .valueErr ∧
    (is_interlocked ⟨some true, [], ["abc".data]⟩).1 = .ok false := by
  have h1 := c8_typed_parsing ⟨some true, [], ["23.4".data]⟩ ("23.4".data) [] rfl rfl
  have h2 := c8_typed_parsing ⟨some true, [], ["abc".data]⟩ ("abc".data) [] rfl rfl
  refine ⟨?_, ?_, ?_⟩
  · apply h1.1
    rw [show fmtResponse (frame ("RINTE".data)) ("23.4".data) = "23.4".data by decide]
    rw [show pyFloat ("23.4".data)
        = some (((23 : ℕ) : ℚ) + ((4 : ℕ) : ℚ) / (10 : ℚ) ^ (1 : ℕ)) from rfl]
    norm_num
  · apply h2.2.1
    decide
  · rw [h2.2.2]
    decide

/-- Claim C9 counterexample: select_pumps performs no validation at all; the
out-of-range selector 3 is framed and sent with no error. -/
theorem c9_no_validation :
    select_pumps ⟨some true, [], []⟩ 3
        = (.ok (), ⟨some true, ["SPONO3\x0d".data], []⟩) := by decide

/-- Claim C9 (amended): for every integer p both variants frame SPONO
followed by str(p) and send it; no range check exists, so no value of p is
rejected. -/
theorem c9_select_pumps (st : DrvState) (qf : PyStr → Except Unit PyStr) (p : Int)
    (hopen : st.port = some true) :
    (select_pumps st p).2.sent
        = st.sent ++ ["SPONO".data ++ pyStrInt p ++ [termChar]] ∧
    (select_pumps st p).1 = Except.ok () ∧
    (api_select_pumps (some qf) p).1 = ["SPONO".data ++ pyStrInt p ++ ['\n']] := by
  have hframe : frame ("SPONO".data ++ pyStrInt p)
      = "SPONO".data ++ pyStrInt p ++ [termChar] := by
    unfold frame
    rw [if_neg (pyStrInt_not_suffix termChar (by decide) _ p)]
  refine ⟨?_, ?_, ?_⟩
  · unfold select_pumps
    rw [sendQuery_open st _ hopen, hframe]
    simp [qBind]
  · unfold select_pumps
    rw [sendQuery_open st _ hopen]
    simp [qBind]
  · simp only [api_select_pumps, api_send_query]
    rw [if_pos (pyStrInt_not_suffix '\n' (by decide) _ p)]
    rcases hq : qf ("SPONO".data ++ pyStrInt p ++ ['\n']) with r | r <;> simp [hq]

/-- Witness for the amended C9 at p = 3 and at p = -1: both are framed and
sent without any error. -/
theorem c9_select_pumps_witness :
    (select_pumps ⟨some true, [], []⟩ 3).2.sent = ["SPONO3\x0d".data] ∧
    (api_select_pumps (some (fun c => Except.ok c)) 3).1 = ["SPONO3\n".data] ∧
    (select_pumps ⟨some true, [], []⟩ (-1)).1 = Except.ok () := by
  have h := c9_select_pumps ⟨some true, [], []⟩ (fun c => Except.ok c) 3 rfl
  have h2 := c9_select_pumps ⟨some true, [], []⟩ (fun c => Except.ok c) (-1) rfl
  refine ⟨?_, ?_, h2.2.1⟩
  · rw [h.1]
    decide
  · rw [h.2.2]
    decide

/-! ## Claim C10 -/

/-- Claim C10: every derived-field accessor issues its own fresh query per
access — each hour accessor sends a new RHOUR command and parses one
space-separated field (indices 0, 1, 2) as int, each factory-info accessor
sends a new RFINF command and takes one field (indices 0 to 5, index 2 as
int) — consuming exactly one pending device response per access with nothing
cached, so two successive reads perform two independent exchanges and may
observe different device states. -/
theorem c10_fresh_queries (st : DrvState) (r0 r1 : PyStr) (rs : List PyStr)
    (hopen : st.port = some true) :
    (st.pending = r0 :: rs →
      (unit_hours st).2
          = { st with sent := st.sent ++ [frame ("RHOUR".data)], pending := rs } ∧
      (unit_hours st).1 = hourField (fmtResponse (frame ("RHOUR".data)) r0) 0 ∧
      (pump1_hours st).1 = hourField (fmtResponse (frame ("RHOUR".data)) r0) 1 ∧
      (pump2_hours st).1 = hourField (fmtResponse (frame ("RHOUR".data)) r0) 2 ∧
      (serial_number st).2
          = { st with sent := st.sent ++ [frame ("RFINF".data)], pending := rs } ∧
      (serial_number st).1 = finfField (fmtResponse (frame ("RFINF".data)) r0) 0 ∧
      (protocol_version st).1 = finfField (fmtResponse (frame ("RFINF".data)) r0) 1 ∧
      (∀ f z, finfField (fmtResponse (frame ("RFINF".data)) r0) 2 = .ok f →
        pyInt f = some z → (boot_ups st).1 = .ok z) ∧
      (hardware_version st).1 = finfField (fmtResponse (frame ("RFINF".data)) r0) 3 ∧
      (sofware_version st).1 = finfField (fmtResponse (frame ("RFINF".data)) r0) 4 ∧
      (compile_date st).1 = finfField (fmtResponse (frame ("RFINF".data)) r0) 5) ∧
    (st.pending = r0 :: r1 :: rs →
      (pump1_hours (unit_hours st).2).2.sent
          = st.sent ++ [frame ("RHOUR".data), frame ("RHOUR".data)] ∧
      (pump1_hours (unit_hours st).2).1
          = hourField (fmtResponse (frame ("RHOUR".data)) r1) 1) := by
  constructor
  · intro hpend
    have hsH := sendQuery_open st ("RHOUR".data) hopen
    have hsF := sendQuery_open st ("RFINF".data) hopen
    rw [hpend] at hsH hsF
    simp only [List.headD_cons, List.tail_cons] at hsH hsF
    refine ⟨?_, ?_, ?_, ?_, ?_, ?_, ?_, ?_, ?_, ?_, ?_⟩
    · unfold unit_hours hour_meters
      rw [hsH]
      simp [qBind]
    · unfold unit_hours hour_meters
      rw [hsH]
      simp [qBind]
    · unfold pump1_hours hour_meters
      rw [hsH]
      simp [qBind]
    · unfold pump2_hours hour_meters
      rw [hsH]
      simp [qBind]
    · unfold serial_number factory_info
      rw [hsF]
      simp [qBind]
    · unfold serial_number factory_info
      rw [hsF]
      simp [qBind]
    · unfold protocol_version factory_info
      rw [hsF]
      simp [qBind]
    · intro f z hf hz
      unfold boot_ups factory_info
      rw [hsF]
      simp [qBind, hf, hz]
    · unfold hardware_version factory_info
      rw [hsF]
      simp [qBind]
    · unfold sofware_version factory_info
      rw [hsF]
      simp [qBind]
    · unfold compile_date factory_info
      rw [hsF]
      simp [qBind]
  · intro hpend2
    have h1 := sendQuery_open st ("RHOUR".data) hopen
    rw [hpend2] at h1
    simp only [List.headD_cons, List.tail_cons] at h1
    have hst1 : (unit_hours st).2
        = { st with sent := st.sent ++ [frame ("RHOUR".data)], pending := r1 :: rs } := by
      unfold unit_hours hour_meters
      rw [h1]
      simp [qBind]
    have h2 := sendQuery_open
      { st with sent := st.sent ++ [frame ("RHOUR".data)], pending := r1 :: rs }
      ("RHOUR".data) hopen
    simp only [List.headD_cons, List.tail_cons] at h2
    constructor
    · unfold pump1_hours hour_meters
      rw [hst1, h2]
      simp [qBind]
    · unfold pump1_hours hour_meters
      rw [hst1, h2]
      simp [qBind]

/-- Witness for C10 at the spec scenarios: the hour-meter triple and the
factory-info record, plus two successive hour reads consuming two distinct
responses. -/
theorem c10_fresh_queries_witness :
    (unit_hours ⟨some true, [], ["000123 000045 000067".data]⟩).1 = .ok 123 ∧
    (serial_number ⟨some true, [], ["10234 2 57 A1 3.2 20230401".data]⟩).1
        = .ok ("10234".data) ∧
    (unit_hours ⟨some true, [], ["000123 000045 000067".data]⟩).2
        = ⟨some true, ["RHOUR\x0d".data], []⟩ ∧
    (pump1_hours (unit_hours ⟨some true, [], ["1 2 3".data, "4 5 6".data]⟩).2).1
        = .ok 5 := by
  have ha := (c10_fresh_queries ⟨some true, [], ["000123 000045 000067".data]⟩
      ("000123 000045 000067".data) [] [] rfl).1 rfl
  have hb := (c10_fresh_queries ⟨some true, [], ["10234 2 57 A1 3.2 20230401".data]⟩
      ("10234 2 57 A1 3.2 20230401".data) [] [] rfl).1 rfl
  have hc := (c10_fresh_queries ⟨some true, [], ["1 2 3".data, "4 5 6".data]⟩
      ("1 2 3".data) ("4 5 6".data) [] rfl).2 rfl
  refine ⟨?_, ?_, ?_, ?_⟩
  · rw [ha.2.1]
    decide
  · rw [hb.2.2.2.2.2.1]
    decide
  · rw [ha.1]
    decide
  · rw [hc.2]
    decide

end HEU3
